import Mathlib

/-!
# Serial console bridge (`mos/console.go`)

A shallow embedding of the console command of the `mos` tool: the byte filter
`removeNonText`, the timestamp prefix `FormatTimestampNow`, the two pumps that
`console` starts (serial to standard output, standard input to serial) and the
set-up phase of `console` itself.

Bytes are natural numbers (a Go `byte` is a value below 256).  A buffer is a
list of bytes.  Every effect of the program is recorded as an `Event` in a
trace, in program order.
-/

set_option autoImplicit false

namespace Console

/-! ## The byte filter -/

/-- The condition of the `if` in `removeNonText`:
`(c < 0x20 && c != 0x0a && c != 0x0d && c != 0x1b) || c >= 0x80`. -/
def isNonText (c : Nat) : Bool :=
  (decide (c < 0x20) && c != 0x0a && c != 0x0d && c != 0x1b) || decide (c ≥ 0x80)

/-- One iteration of the loop of `removeNonText`, at index `i`: the byte
`data[i]` is read and, when it is not text, `data[i]` is set to `0x20`. -/
def removeNonTextStep (data : List Nat) (i : Nat) : List Nat :=
  match data.get? i with
  | some c => if isNonText c then data.set i 0x20 else data
  | none => data

/-- The function `removeNonText`: `for i, c := range data`, the loop visits the
indices `0 .. len(data)-1` in order and updates the buffer in place. -/
def removeNonText (data : List Nat) : List Nat :=
  (List.range data.length).foldl removeNonTextStep data

/-- The effect of `removeNonText` on one byte. -/
def sanitizeByte (c : Nat) : Nat := if isNonText c then 0x20 else c

/-! ## Flags, time and the timestamp prefix -/

/-- The package-level variables of `console.go` (`baudRate`, `noInput`, `hwFC`,
`setControlLines`, `tsfSpec`, `tsFormat`) and the flag `*invertedControlLines`
that `console` reads. -/
structure Flags where
  baudRate : Nat
  noInput : Bool
  hwFC : Bool
  setControlLines : Bool
  invertedControlLines : Bool
  tsfSpec : String
  tsFormat : String
  deriving DecidableEq, Repr

/-- The function `consoleInit`; `parse` stands for
`timestamp.ParseTimeStampFormatSpec`, which lives in another package. -/
def consoleInit (parse : String → String) (f : Flags) : Flags :=
  if f.tsfSpec ≠ "" then { f with tsFormat := parse f.tsfSpec } else f

/-- What the pumps see of the outside: the flags, the clock and the formatter
of the `timestamp` package.  `now k` is the reading of `time.Now()` in the
`k`-th call of `FormatTimestampNow` (counted from 0); `formatTimestamp t f`
stands for `timestamp.FormatTimestamp(t, f)`. -/
structure Env where
  flags : Flags
  now : Nat → Nat
  formatTimestamp : Nat → String → String

/-- The function `FormatTimestampNow`, at its `k`-th call:
`"[" ++ FormatTimestamp(now, tsFormat) ++ "] "` when `tsFormat` is not empty,
the empty string otherwise. -/
def FormatTimestampNow (env : Env) (k : Nat) : String :=
  if env.flags.tsFormat ≠ "" then
    "[" ++ env.formatTimestamp (env.now k) env.flags.tsFormat ++ "] "
  else ""

/-! ## Effects -/

/-- The options `console` passes to `serial.Open`. -/
structure OpenOptions where
  portName : String
  baudRate : Nat
  hardwareFlowControl : Bool
  dataBits : Nat
  parityNone : Bool
  stopBits : Nat
  minimumReadSize : Nat
  deriving DecidableEq, Repr

/-- One observable effect of `console`. -/
inductive Event where
  /-- The call `serial.Open(opts)`. -/
  | serialOpen (opts : OpenOptions)
  /-- The call `s.SetRTSDTR(rts, dtr)`. -/
  | setRTSDTR (rts dtr : Bool)
  /-- A call `s.Read(buf)` that returned. -/
  | serialRead
  /-- The call `fmt.Printf("%s", str)`: `str` goes to standard output. -/
  | stdoutPrintf (str : String)
  /-- The call `out.Write(bs)`. -/
  | stdoutWrite (bs : List Nat)
  /-- The call `reportf(...)`, with the formatted message. -/
  | reportf (msg : String)
  /-- The call `cancel()`. -/
  | cancel
  /-- A call `in.Read(buf)` that returned. -/
  | stdinRead
  /-- The call `s.Write(bs)`. -/
  | serialWrite (bs : List Nat)
  deriving DecidableEq, Repr

/-- What a call of `Read(buf)` returned: `data` is `buf[:n]` and `err` the
message of the error, if there is one. -/
structure ReadResult where
  data : List Nat
  err : Option String
  deriving DecidableEq, Repr

/-- How far a pump got. -/
inductive PumpStatus where
  /-- The goroutine returned. -/
  | returned
  /-- The goroutine waits in a `Read` that has not returned. -/
  | blockedInRead
  /-- The goroutine is in `select {}`. -/
  | parked
  deriving DecidableEq, Repr

/-! ## The output pump: serial to standard output -/

/-- The state of the output pump: the variable `lineStart`, and the number of
calls of `FormatTimestampNow` made so far. -/
structure OutState where
  lineStart : Bool
  stamps : Nat
  deriving DecidableEq, Repr

/-- One iteration of `for i, b := range buf[:n]`: print the timestamp if
`lineStart`, write the byte, set `lineStart = (b == '\n')`. -/
def emitByte (env : Env) (st : OutState) (b : Nat) : List Event × OutState :=
  if st.lineStart then
    ([Event.stdoutPrintf (FormatTimestampNow env st.stamps), Event.stdoutWrite [b]],
      { lineStart := (b == 0x0a), stamps := st.stamps + 1 })
  else
    ([Event.stdoutWrite [b]], { lineStart := (b == 0x0a), stamps := st.stamps })

/-- The loop `for i, b := range buf[:n]` of the output pump. -/
def emitStamped (env : Env) : List Nat → OutState → List Event × OutState
  | [], st => ([], st)
  | b :: bs, st =>
    let r1 := emitByte env st b
    let r2 := emitStamped env bs r1.2
    (r1.1 ++ r2.1, r2.2)

/-- The block `if n > 0 { ... }` of the output pump, on the bytes `buf[:n]`. -/
def writeChunk (env : Env) (st : OutState) (data : List Nat) : List Event × OutState :=
  if data.length > 0 then
    if env.flags.tsfSpec ≠ "" then emitStamped env (removeNonText data) st
    else ([Event.stdoutWrite (removeNonText data)], st)
  else ([], st)

/-- A run of the output pump. -/
structure OutRun where
  trace : List Event
  st : OutState
  status : PumpStatus
  unread : List ReadResult
  deriving DecidableEq, Repr

/-- The loop of the goroutine `Serial -> Stdout`, from the state `st`, when the
calls of `s.Read` return `reads` in this order (and no call returns after
them). -/
def outputPumpFrom (env : Env) : OutState → List ReadResult → OutRun
  | st, [] => { trace := [], st := st, status := PumpStatus.blockedInRead, unread := [] }
  | st, r :: rs =>
    let w := writeChunk env st r.data
    match r.err with
    | some e =>
      { trace := Event.serialRead :: (w.1 ++ [Event.reportf ("read err " ++ e), Event.cancel]),
        st := w.2, status := PumpStatus.returned, unread := rs }
    | none =>
      let run := outputPumpFrom env w.2 rs
      { run with trace := Event.serialRead :: (w.1 ++ run.trace) }

/-- The goroutine `Serial -> Stdout`: it starts with `lineStart := true`. -/
def outputPump (env : Env) (reads : List ReadResult) : OutRun :=
  outputPumpFrom env { lineStart := true, stamps := 0 } reads

/-! ## The input pump: standard input to serial -/

/-- A run of the input pump. -/
structure InRun where
  trace : List Event
  status : PumpStatus
  unread : List ReadResult
  deriving DecidableEq, Repr

/-- The block `if n > 0 { s.Write(buf[:n]) }` of the input pump, on the bytes
`buf[:n]`. -/
def forward (data : List Nat) : List Event :=
  if data.length > 0 then [Event.serialWrite data] else []

/-- The loop of the goroutine `Stdin -> Serial`, when the calls of `in.Read`
return `reads` in this order. -/
def inputLoop : List ReadResult → InRun
  | [] => { trace := [], status := PumpStatus.blockedInRead, unread := [] }
  | r :: rs =>
    match r.err with
    | some _ =>
      { trace := Event.stdinRead :: (forward r.data ++ [Event.cancel]),
        status := PumpStatus.returned, unread := rs }
    | none =>
      let run := inputLoop rs
      { run with trace := Event.stdinRead :: (forward r.data ++ run.trace) }

/-- The goroutine `Stdin -> Serial`: with `noInput` it blocks in `select {}`
before the loop. -/
def inputPump (flags : Flags) (reads : List ReadResult) : InRun :=
  if flags.noInput then { trace := [], status := PumpStatus.parked, unread := reads }
  else inputLoop reads

/-! ## The function `console` -/

/-- The errors `console` returns. -/
inductive ConsoleError where
  /-- The value `errors.Trace(err)`. -/
  | traced (err : String)
  /-- The value `errors.Annotatef(err, format, args...)`, with the formatted
  message. -/
  | annotated (err : String) (msg : String)
  deriving DecidableEq, Repr

/-- The message of an error, as `Error()` of the `errors` package renders it:
the annotation, then the cause. -/
def ConsoleError.message : ConsoleError → String
  | ConsoleError.traced err => err
  | ConsoleError.annotated err msg => msg ++ ": " ++ err

/-- How a call of `console` ends. -/
inductive Outcome where
  /-- It returns a non-nil error. -/
  | error (e : ConsoleError)
  /-- It returns `nil`. -/
  | nil
  /-- It waits in `<-cctx.Done()` and nothing cancels the context. -/
  | waiting
  deriving DecidableEq, Repr

/-- The surroundings of one call of `console`: the result of `getPort()`, the
error of `serial.Open` (if any), whether the parent context gets cancelled,
and what the reads of the serial port and of standard input return. -/
structure World where
  getPort : Except String String
  openErr : Option String
  parentDone : Bool
  serialReads : List ReadResult
  stdinReads : List ReadResult

/-- A run of `console`: its outcome, the effects of its set-up phase, and the
runs of the two goroutines when they were started. -/
structure ConsoleRun where
  outcome : Outcome
  setup : List Event
  output : Option OutRun
  input : Option InRun
  deriving DecidableEq, Repr

/-- The options of the call `serial.Open` in `console`. -/
def openOptions (flags : Flags) (port : String) : OpenOptions :=
  { portName := port, baudRate := flags.baudRate, hardwareFlowControl := flags.hwFC,
    dataBits := 8, parityNone := true, stopBits := 1, minimumReadSize := 1 }

/-- The function `console`. -/
def console (env : Env) (w : World) : ConsoleRun :=
  match w.getPort with
  | Except.error err =>
    { outcome := Outcome.error (ConsoleError.traced err), setup := [],
      output := none, input := none }
  | Except.ok port =>
    match w.openErr with
    | some err =>
      { outcome := Outcome.error (ConsoleError.annotated err ("failed to open " ++ port)),
        setup := [Event.serialOpen (openOptions env.flags port)],
        output := none, input := none }
    | none =>
      let lines :=
        if env.flags.setControlLines || env.flags.invertedControlLines then
          [Event.setRTSDTR env.flags.invertedControlLines env.flags.invertedControlLines]
        else []
      let o := outputPump env w.serialReads
      let i := inputPump env.flags w.stdinReads
      { outcome :=
          if w.parentDone || decide (Event.cancel ∈ o.trace) || decide (Event.cancel ∈ i.trace)
          then Outcome.nil else Outcome.waiting,
        setup := Event.serialOpen (openOptions env.flags port) :: lines,
        output := some o, input := some i }

/-- An environment for examples: the flag `--timestamp` is `spec`, the clock
counts the calls and the formatter prints the reading in decimal. -/
def demoEnv (spec : String) : Env :=
  { flags := { baudRate := 115200, noInput := false, hwFC := false, setControlLines := true,
               invertedControlLines := false, tsfSpec := spec, tsFormat := spec },
    now := fun k => k,
    formatTimestamp := fun t _ => toString t }

/-! ## Observations on traces -/

/-- The successful reads that return the chunks `chunks`. -/
def okReads (chunks : List (List Nat)) : List ReadResult :=
  chunks.map fun c => { data := c, err := none }

/-- Whether an event writes to standard output. -/
def Event.isStdout : Event → Bool
  | Event.stdoutPrintf _ => true
  | Event.stdoutWrite _ => true
  | _ => false

/-- Whether an event is a call of `reportf`. -/
def Event.isReport : Event → Bool
  | Event.reportf _ => true
  | _ => false

/-- Whether an event is a timestamp prefix. -/
def Event.isStamp : Event → Bool
  | Event.stdoutPrintf _ => true
  | _ => false

/-- The bytes an event hands to `out.Write`. -/
def Event.written : Event → List Nat
  | Event.stdoutWrite bs => bs
  | _ => []

/-- The bytes an event hands to `s.Write`. -/
def Event.sent : Event → List Nat
  | Event.serialWrite bs => bs
  | _ => []

/-- The events of a trace that write to standard output. -/
def stdoutEvents (t : List Event) : List Event := t.filter Event.isStdout

/-- The number of timestamp prefixes in a trace. -/
def stampCount (t : List Event) : Nat := t.countP Event.isStamp

/-- The bytes a trace writes to standard output through `out.Write`. -/
def writtenBytes (t : List Event) : List Nat := t.flatMap Event.written

/-- The bytes a trace writes to the serial port. -/
def sentBytes (t : List Event) : List Nat := t.flatMap Event.sent

/-- The calls of `s.Write` in a trace, each with its buffer. -/
def serialWrites (t : List Event) : List (List Nat) :=
  t.filterMap fun e => match e with
    | Event.serialWrite bs => some bs
    | _ => none

/-! ## The specification of timestamping, in its own words -/

/-- A line boundary of the stream `s`: the position `k` is the very start of
the stream, or it immediately follows a line-feed byte. -/
def isLineBoundary (s : List Nat) (k : Nat) : Bool :=
  k == 0 || (decide (0 < k) && s.get? (k - 1) == some 0x0a)

/-- The number of line boundaries of `s` at positions below `k`. -/
def boundariesBefore (s : List Nat) (k : Nat) : Nat :=
  ((List.range k).filter (isLineBoundary s)).length

/-- The output the specification asks for on the sanitized stream `s`: the
bytes in order, one write each, and the timestamp prefix immediately before
the byte at every line boundary and nowhere else. -/
def specStamped (env : Env) (s : List Nat) : List Event :=
  (List.range s.length).flatMap fun k =>
    (if isLineBoundary s k then
      [Event.stdoutPrintf (FormatTimestampNow env (boundariesBefore s k))]
     else []) ++ [Event.stdoutWrite [s.getD k 0]]

/-! ## Lemmas on the filter -/

theorem removeNonTextStep_length (data : List Nat) (i : Nat) :
    (removeNonTextStep data i).length = data.length := by
  unfold removeNonTextStep
  cases data.get? i with
  | none => rfl
  | some c => by_cases h : isNonText c <;> simp [h]

theorem removeNonTextStep_eq (pre post : List Nat) (c : Nat) :
    removeNonTextStep (pre ++ c :: post) pre.length = pre ++ sanitizeByte c :: post := by
  unfold removeNonTextStep sanitizeByte
  have h : (pre ++ c :: post).get? pre.length = some c := by
    rw [List.get?_eq_getElem?, List.getElem?_append_right (Nat.le_refl _)]
    simp
  rw [h]
  by_cases hc : isNonText c <;> simp [hc]

theorem foldl_removeNonTextStep (k : Nat) (data : List Nat) (hk : k ≤ data.length) :
    (List.range k).foldl removeNonTextStep data
      = (data.take k).map sanitizeByte ++ data.drop k := by
  induction k with
  | zero => simp
  | succ k ih =>
    have hk2 : k < data.length := hk
    rw [List.range_succ, List.foldl_append, ih (Nat.le_of_lt hk2)]
    simp only [List.foldl_cons, List.foldl_nil]
    have hd : data.drop k = data.get ⟨k, hk2⟩ :: data.drop (k + 1) := by
      simp
    have hl : ((data.take k).map sanitizeByte).length = k := by
      simp [Nat.min_eq_left (Nat.le_of_lt hk2)]
    rw [hd]
    have := removeNonTextStep_eq ((data.take k).map sanitizeByte) (data.drop (k + 1))
      (data.get ⟨k, hk2⟩)
    rw [hl] at this
    rw [this]
    have ht : data.take (k + 1) = data.take k ++ [data.get ⟨k, hk2⟩] := by
      simp [List.take_succ, List.get?_eq_get hk2]
    rw [ht, List.map_append, List.append_assoc]
    rfl

/-- The in-place loop is a bytewise map. -/
theorem removeNonText_eq_map (data : List Nat) :
    removeNonText data = data.map sanitizeByte := by
  unfold removeNonText
  rw [foldl_removeNonTextStep data.length data (Nat.le_refl _)]
  simp

theorem removeNonText_length (data : List Nat) :
    (removeNonText data).length = data.length := by
  simp [removeNonText_eq_map]

theorem removeNonText_append (a b : List Nat) :
    removeNonText (a ++ b) = removeNonText a ++ removeNonText b := by
  simp [removeNonText_eq_map]

theorem sanitizeByte_idem (c : Nat) : sanitizeByte (sanitizeByte c) = sanitizeByte c := by
  unfold sanitizeByte
  by_cases h : isNonText c
  · simp [h]
  · simp [h]

theorem sanitizeByte_eq_lf (c : Nat) : sanitizeByte c = 0x0a ↔ c = 0x0a := by
  unfold sanitizeByte isNonText
  constructor
  · intro h
    split at h
    · omega
    · exact h
  · intro h
    subst h
    decide

theorem sanitizeByte_lt (c : Nat) (h : c < 256) : sanitizeByte c < 256 := by
  unfold sanitizeByte
  split <;> omega

theorem count_lf_removeNonText (s : List Nat) :
    (removeNonText s).count 0x0a = s.count 0x0a := by
  rw [removeNonText_eq_map]
  induction s with
  | nil => rfl
  | cons x xs ih =>
    rw [List.map_cons, List.count_cons, List.count_cons, ih]
    by_cases hx : x = 0x0a
    · subst hx
      rfl
    · have h1 : ¬ sanitizeByte x = 0x0a := fun h => hx ((sanitizeByte_eq_lf x).mp h)
      simp [hx, h1]

theorem count_one_dropLast (s : List Nat) (h1 : s.count 0x0a = 1) :
    (if s ≠ [] then 1 else 0) + s.dropLast.count 0x0a
      = if s.getLast? = some 0x0a then 1 else 2 := by
  induction s using List.reverseRecOn with
  | nil => simp at h1
  | append_singleton s b _ =>
    rw [List.count_append, List.count_singleton] at h1
    rw [List.dropLast_concat, List.getLast?_concat]
    by_cases hb : b = 0x0a
    · subst hb
      simp at h1
      simp [h1]
    · have hb2 : (b == 0x0a) = false := by simpa using hb
      rw [hb2] at h1
      simp at h1
      simp [hb, h1]

/-! ## Lemmas on traces -/

theorem writtenBytes_append (a b : List Event) :
    writtenBytes (a ++ b) = writtenBytes a ++ writtenBytes b := by
  simp [writtenBytes]

theorem stampCount_append (a b : List Event) :
    stampCount (a ++ b) = stampCount a + stampCount b := by
  simp [stampCount]

theorem stdoutEvents_append (a b : List Event) :
    stdoutEvents (a ++ b) = stdoutEvents a ++ stdoutEvents b := by
  simp [stdoutEvents]

theorem writtenBytes_stdoutEvents (t : List Event) :
    writtenBytes (stdoutEvents t) = writtenBytes t := by
  induction t with
  | nil => rfl
  | cons e es ih =>
    cases e <;> simp_all [writtenBytes, stdoutEvents, Event.isStdout, Event.written]

theorem control_stdoutEvents (t : List Event) :
    (stdoutEvents t).filter (fun e => !e.isStdout) = [] := by
  unfold stdoutEvents
  rw [List.filter_filter]
  simp

theorem count_filter_control (t : List Event) (e : Event) (he : e.isStdout = false) :
    t.count e = (t.filter (fun x => !x.isStdout)).count e := by
  rw [List.count_filter]
  simp [he]

theorem countP_filter_control (t : List Event) :
    t.countP Event.isReport = (t.filter (fun x => !x.isStdout)).countP Event.isReport := by
  rw [List.countP_filter]
  apply List.countP_congr
  intro x _
  cases x <;> simp [Event.isReport, Event.isStdout]

/-! ## The loop of the output pump -/

theorem okReads_cons (c : List Nat) (cs : List (List Nat)) :
    okReads (c :: cs) = { data := c, err := none } :: okReads cs := rfl

theorem outputPumpFrom_ok (env : Env) (st : OutState) (c : List Nat) (rs : List ReadResult) :
    outputPumpFrom env st ({ data := c, err := none } :: rs)
      = { outputPumpFrom env (writeChunk env st c).2 rs with
          trace := Event.serialRead ::
            ((writeChunk env st c).1 ++ (outputPumpFrom env (writeChunk env st c).2 rs).trace) } :=
  rfl

theorem outputPumpFrom_fault (env : Env) (st : OutState) (c : List Nat) (e : String)
    (rs : List ReadResult) :
    outputPumpFrom env st ({ data := c, err := some e } :: rs)
      = { trace := Event.serialRead ::
            ((writeChunk env st c).1 ++ [Event.reportf ("read err " ++ e), Event.cancel]),
          st := (writeChunk env st c).2, status := PumpStatus.returned, unread := rs } :=
  rfl

theorem outputPumpFrom_okReads_append (env : Env) (chunks : List (List Nat))
    (rs : List ReadResult) (st : OutState) :
    outputPumpFrom env st (okReads chunks ++ rs)
      = { outputPumpFrom env (outputPumpFrom env st (okReads chunks)).st rs with
          trace := (outputPumpFrom env st (okReads chunks)).trace
            ++ (outputPumpFrom env (outputPumpFrom env st (okReads chunks)).st rs).trace } := by
  induction chunks generalizing st with
  | nil => rfl
  | cons c cs ih =>
    rw [okReads_cons, List.cons_append, outputPumpFrom_ok, outputPumpFrom_ok, ih]
    simp

/-! ## The output pump without timestamps -/

theorem writeChunk_plain (env : Env) (st : OutState) (c : List Nat)
    (h : env.flags.tsfSpec = "") :
    writtenBytes (writeChunk env st c).1 = removeNonText c
      ∧ stampCount (writeChunk env st c).1 = 0 := by
  unfold writeChunk
  cases c with
  | nil => simp [writtenBytes, stampCount, removeNonText]
  | cons b bs =>
    simp [h, writtenBytes, stampCount, Event.written, Event.isStamp]

theorem outputPumpFrom_plain (env : Env) (h : env.flags.tsfSpec = "")
    (chunks : List (List Nat)) (st : OutState) :
    writtenBytes (outputPumpFrom env st (okReads chunks)).trace = removeNonText chunks.flatten
      ∧ stampCount (outputPumpFrom env st (okReads chunks)).trace = 0 := by
  induction chunks generalizing st with
  | nil => simp [okReads, outputPumpFrom, writtenBytes, stampCount, removeNonText]
  | cons c cs ih =>
    rw [okReads_cons, outputPumpFrom_ok]
    have hw := writeChunk_plain env st c h
    have hi := ih (writeChunk env st c).2
    constructor
    · show writtenBytes (Event.serialRead :: _) = _
      rw [List.flatten_cons, removeNonText_append, ← hw.1, ← hi.1, ← writtenBytes_append]
      simp [writtenBytes, Event.written]
    · show stampCount (Event.serialRead :: _) = _
      have := stampCount_append (writeChunk env st c).1
        (outputPumpFrom env (writeChunk env st c).2 (okReads cs)).trace
      rw [hw.2, hi.2] at this
      simp only [stampCount] at this ⊢
      rw [List.countP_cons, this]
      simp [Event.isStamp]

/-! ## The output pump with timestamps -/

theorem emitStamped_append (env : Env) (a b : List Nat) (st : OutState) :
    emitStamped env (a ++ b) st
      = ((emitStamped env a st).1 ++ (emitStamped env b (emitStamped env a st).2).1,
         (emitStamped env b (emitStamped env a st).2).2) := by
  induction a generalizing st with
  | nil => simp [emitStamped]
  | cons x xs ih =>
    show emitStamped env (x :: (xs ++ b)) st = _
    simp only [emitStamped, ih, List.append_assoc]

theorem emitStamped_single (env : Env) (b : Nat) (st : OutState) :
    emitStamped env [b] st = emitByte env st b := by
  simp [emitStamped]

theorem writeChunk_stamped (env : Env) (st : OutState) (c : List Nat)
    (h : env.flags.tsfSpec ≠ "") :
    writeChunk env st c = emitStamped env (removeNonText c) st := by
  unfold writeChunk
  cases c with
  | nil => simp [removeNonText, emitStamped]
  | cons b bs => simp [h]

theorem stdoutEvents_emitByte (env : Env) (b : Nat) (st : OutState) :
    stdoutEvents (emitByte env st b).1 = (emitByte env st b).1 := by
  unfold emitByte stdoutEvents
  split <;> simp [Event.isStdout]

theorem stdoutEvents_emitStamped (env : Env) (s : List Nat) (st : OutState) :
    stdoutEvents (emitStamped env s st).1 = (emitStamped env s st).1 := by
  induction s generalizing st with
  | nil => simp [emitStamped, stdoutEvents]
  | cons x xs ih =>
    simp only [emitStamped, stdoutEvents_append, ih, stdoutEvents_emitByte]

theorem outputPumpFrom_stamped (env : Env) (h : env.flags.tsfSpec ≠ "")
    (chunks : List (List Nat)) (st : OutState) :
    stdoutEvents (outputPumpFrom env st (okReads chunks)).trace
        = (emitStamped env (removeNonText chunks.flatten) st).1
      ∧ (outputPumpFrom env st (okReads chunks)).st
        = (emitStamped env (removeNonText chunks.flatten) st).2 := by
  induction chunks generalizing st with
  | nil => simp [okReads, outputPumpFrom, stdoutEvents, removeNonText, emitStamped]
  | cons c cs ih =>
    rw [okReads_cons, outputPumpFrom_ok, List.flatten_cons, removeNonText_append,
      emitStamped_append, writeChunk_stamped env st c h]
    have hi := ih (emitStamped env (removeNonText c) st).2
    constructor
    · show stdoutEvents (Event.serialRead :: _) = _
      have e : ∀ t : List Event, stdoutEvents (Event.serialRead :: t) = stdoutEvents t :=
        fun _ => rfl
      rw [e, stdoutEvents_append, stdoutEvents_emitStamped, hi.1]
    · exact hi.2

theorem stampCount_emitByte (env : Env) (b : Nat) (st : OutState) :
    stampCount (emitByte env st b).1 = (if st.lineStart then 1 else 0) := by
  unfold emitByte stampCount
  by_cases h : st.lineStart <;> simp [h, Event.isStamp]

theorem emitByte_lineStart (env : Env) (b : Nat) (st : OutState) :
    (emitByte env st b).2.lineStart = (b == 0x0a) := by
  unfold emitByte
  split <;> rfl

theorem stampCount_emitStamped (env : Env) (s : List Nat) (st : OutState) :
    stampCount (emitStamped env s st).1
      = (if st.lineStart = true ∧ s ≠ [] then 1 else 0) + s.dropLast.count 0x0a := by
  induction s generalizing st with
  | nil => simp [emitStamped, stampCount]
  | cons x xs ih =>
    simp only [emitStamped, stampCount_append, stampCount_emitByte, ih, emitByte_lineStart]
    cases xs with
    | nil => simp
    | cons y ys =>
      rw [List.dropLast_cons₂, List.count_cons]
      by_cases hx : x = 0x0a
      · subst hx
        simp
        omega
      · have : (x == 0x0a) = false := by simpa using hx
        simp [this, hx]

theorem writtenBytes_emitStamped (env : Env) (s : List Nat) (st : OutState) :
    writtenBytes (emitStamped env s st).1 = s := by
  induction s generalizing st with
  | nil => rfl
  | cons x xs ih =>
    simp only [emitStamped, writtenBytes_append, ih]
    unfold emitByte
    split <;> simp [writtenBytes, Event.written]

/-! ## The events of the output pump other than its output -/

theorem writeChunk_isStdout (env : Env) (st : OutState) (c : List Nat) :
    stdoutEvents (writeChunk env st c).1 = (writeChunk env st c).1 := by
  unfold writeChunk
  split
  · split
    · exact stdoutEvents_emitStamped env _ st
    · rfl
  · rfl

theorem control_writeChunk (env : Env) (st : OutState) (c : List Nat) :
    (writeChunk env st c).1.filter (fun e => !e.isStdout) = [] := by
  rw [← writeChunk_isStdout]
  exact control_stdoutEvents _

theorem control_outputPumpFrom_ok (env : Env) (chunks : List (List Nat)) (st : OutState) :
    (outputPumpFrom env st (okReads chunks)).trace.filter (fun e => !e.isStdout)
      = List.replicate chunks.length Event.serialRead := by
  induction chunks generalizing st with
  | nil => rfl
  | cons c cs ih =>
    rw [okReads_cons, outputPumpFrom_ok]
    show List.filter _ (Event.serialRead :: (_ ++ _)) = _
    rw [List.filter_cons, List.filter_append, control_writeChunk, ih]
    rfl

/-! ## The pump meets the specification of timestamping -/

theorem isLineBoundary_append (s t : List Nat) (k : Nat) (hk : k ≤ s.length) :
    isLineBoundary (s ++ t) k = isLineBoundary s k := by
  unfold isLineBoundary
  cases k with
  | zero => rfl
  | succ k =>
    have hk2 : k < s.length := hk
    simp [List.getElem?_append_left hk2]

theorem isLineBoundary_concat (s : List Nat) (b : Nat) :
    isLineBoundary (s ++ [b]) (s.length + 1) = (b == 0x0a) := by
  unfold isLineBoundary
  simp

theorem boundariesBefore_append (s t : List Nat) (k : Nat) (hk : k ≤ s.length) :
    boundariesBefore (s ++ t) k = boundariesBefore s k := by
  unfold boundariesBefore
  congr 1
  apply List.filter_congr
  intro x hx
  exact isLineBoundary_append s t x (Nat.le_trans (Nat.le_of_lt (List.mem_range.mp hx)) hk)

theorem boundariesBefore_succ (s : List Nat) (k : Nat) :
    boundariesBefore s (k + 1)
      = boundariesBefore s k + (if isLineBoundary s k then 1 else 0) := by
  unfold boundariesBefore
  rw [List.range_succ, List.filter_append, List.length_append]
  by_cases h : isLineBoundary s k <;> simp [h]

theorem specStamped_concat (env : Env) (s : List Nat) (b : Nat) :
    specStamped env (s ++ [b])
      = specStamped env s ++
        ((if isLineBoundary s s.length then
            [Event.stdoutPrintf (FormatTimestampNow env (boundariesBefore s s.length))]
          else []) ++ [Event.stdoutWrite [b]]) := by
  unfold specStamped
  rw [List.length_append, List.length_singleton, List.range_succ, List.flatMap_append]
  congr 1
  · apply List.flatMap_congr
    intro k hk
    have hk2 : k < s.length := List.mem_range.mp hk
    rw [isLineBoundary_append s [b] k (Nat.le_of_lt hk2),
      boundariesBefore_append s [b] k (Nat.le_of_lt hk2), List.getD_append s [b] 0 k hk2]
  · rw [List.flatMap_singleton, isLineBoundary_append s [b] s.length (Nat.le_refl _),
      boundariesBefore_append s [b] s.length (Nat.le_refl _)]
    simp

theorem emitStamped_spec (env : Env) (s : List Nat) :
    emitStamped env s { lineStart := true, stamps := 0 }
      = (specStamped env s,
          { lineStart := isLineBoundary s s.length, stamps := boundariesBefore s s.length }) := by
  induction s using List.reverseRecOn with
  | nil => rfl
  | append_singleton s b ih =>
    rw [emitStamped_append, ih, emitStamped_single, specStamped_concat, List.length_append,
      List.length_singleton, isLineBoundary_concat, boundariesBefore_succ,
      isLineBoundary_append s [b] s.length (Nat.le_refl _),
      boundariesBefore_append s [b] s.length (Nat.le_refl _)]
    unfold emitByte
    by_cases h : isLineBoundary s s.length <;> simp [h]

theorem isLineBoundary_length (s : List Nat) :
    isLineBoundary s s.length = true ↔ (s = [] ∨ s.getLast? = some 0x0a) := by
  induction s using List.reverseRecOn with
  | nil => simp [isLineBoundary]
  | append_singleton s b _ =>
    rw [List.length_append, List.length_singleton, isLineBoundary_concat]
    simp

/-! ## The loop of the input pump -/

theorem inputLoop_trace (chunks : List (List Nat)) (c : List Nat) (e : String)
    (rest : List ReadResult) :
    inputLoop (okReads chunks ++ { data := c, err := some e } :: rest)
      = { trace := (chunks ++ [c]).flatMap (fun d => Event.stdinRead :: forward d)
            ++ [Event.cancel],
          status := PumpStatus.returned, unread := rest } := by
  induction chunks with
  | nil => simp [okReads, inputLoop]
  | cons d ds ih =>
    rw [okReads_cons, List.cons_append]
    show ({ inputLoop (okReads ds ++ { data := c, err := some e } :: rest) with
      trace := Event.stdinRead :: (forward d ++
        (inputLoop (okReads ds ++ { data := c, err := some e } :: rest)).trace) } : InRun) = _
    rw [ih]
    simp

theorem sentBytes_forward (l : List (List Nat)) :
    sentBytes (l.flatMap (fun d => Event.stdinRead :: forward d)) = l.flatten := by
  induction l with
  | nil => rfl
  | cons d ds ih =>
    unfold sentBytes at ih ⊢
    rw [List.flatMap_cons, List.flatMap_append, ih, List.flatten_cons]
    cases d <;> simp [forward, Event.sent]

theorem serialWrites_forward (l : List (List Nat)) :
    serialWrites (l.flatMap (fun d => Event.stdinRead :: forward d))
      = l.filter (fun d => decide (d ≠ [])) := by
  induction l with
  | nil => rfl
  | cons d ds ih =>
    unfold serialWrites at ih ⊢
    rw [List.flatMap_cons, List.filterMap_append, ih]
    cases d <;> simp [forward]

theorem count_stdinRead_forward (l : List (List Nat)) :
    (l.flatMap (fun d => Event.stdinRead :: forward d)).count Event.stdinRead = l.length := by
  induction l with
  | nil => rfl
  | cons d ds ih =>
    rw [List.flatMap_cons, List.count_append, ih]
    cases d <;> simp [forward, List.count_cons] <;> omega

theorem quiet_forward (l : List (List Nat)) :
    (l.flatMap (fun d => Event.stdinRead :: forward d)).count Event.cancel = 0 ∧
    (l.flatMap (fun d => Event.stdinRead :: forward d)).countP Event.isReport = 0 := by
  induction l with
  | nil => exact ⟨rfl, rfl⟩
  | cons d ds ih =>
    rw [List.flatMap_cons, List.count_append, List.countP_append, ih.1, ih.2]
    cases d <;> simp [forward, List.count_cons, Event.isReport]

/-! ## The byte filter: the claims -/

/-- C1: `removeNonText d` has the length of `d`, and at every index `i` its
byte is `d[i]` when `0x20 ≤ d[i] < 0x80` or `d[i]` is one of `0x0A`, `0x0D`,
`0x1B`, and `0x20` for every other value of `d[i]`. -/
theorem removeNonText_bytewise (d : List Nat) (i : Nat) :
    (removeNonText d).length = d.length ∧
    (removeNonText d)[i]? = d[i]?.map fun c =>
      if (0x20 ≤ c ∧ c < 0x80) ∨ c = 0x0a ∨ c = 0x0d ∨ c = 0x1b then c else 0x20 := by
  refine ⟨removeNonText_length d, ?_⟩
  rw [removeNonText_eq_map, List.getElem?_map]
  congr 1
  funext c
  unfold sanitizeByte isNonText
  by_cases h1 : (0x20 ≤ c ∧ c < 0x80) ∨ c = 0x0a ∨ c = 0x0d ∨ c = 0x1b
  · rw [if_pos h1, if_neg]
    simp only [Bool.or_eq_true, Bool.and_eq_true, decide_eq_true_eq, bne_iff_ne, ne_eq]
    omega
  · rw [if_neg h1, if_pos]
    simp only [Bool.or_eq_true, Bool.and_eq_true, decide_eq_true_eq, bne_iff_ne, ne_eq]
    omega

/-- C2: applying `removeNonText` twice gives the same buffer as applying it
once. -/
theorem removeNonText_idempotent (d : List Nat) :
    removeNonText (removeNonText d) = removeNonText d := by
  rw [removeNonText_eq_map, removeNonText_eq_map, List.map_map]
  apply List.map_congr_left
  intro c _
  exact sanitizeByte_idem c

/-- C3, as stated, fails: the byte `0x7F` survives the filter, and it is
neither in `0x20 .. 0x7E` nor one of `0x0A`, `0x0D`, `0x1B`. -/
theorem removeNonText_keeps_del :
    ¬ ∀ (d : List Nat) (b : Nat), b ∈ removeNonText d →
      (0x20 ≤ b ∧ b ≤ 0x7e) ∨ b = 0x0a ∨ b = 0x0d ∨ b = 0x1b := by
  intro h
  have h1 := h [0x7f] 0x7f (by decide)
  omega

/-- C3, amended: every byte of `removeNonText d` is in `0x20 .. 0x7F` or is one
of `0x0A`, `0x0D`, `0x1B`; no other byte below `0x20` and no byte `≥ 0x80`
survives the filter. -/
theorem removeNonText_range (d : List Nat) (b : Nat) (hb : b ∈ removeNonText d) :
    (0x20 ≤ b ∧ b ≤ 0x7f) ∨ b = 0x0a ∨ b = 0x0d ∨ b = 0x1b := by
  rw [removeNonText_eq_map, List.mem_map] at hb
  obtain ⟨c, _, hc⟩ := hb
  subst hc
  unfold sanitizeByte isNonText
  split
  · omega
  · rename_i h
    simp only [Bool.or_eq_true, Bool.and_eq_true, decide_eq_true_eq, bne_iff_ne, ne_eq] at h
    omega

/-- The amended C3 at the buffer `[0x00, 0x41, 0x7F, 0xFF]` and its byte
`0x7F`. -/
theorem removeNonText_range_witness :
    0x7f ∈ removeNonText [0x00, 0x41, 0x7f, 0xff] ∧
    ((0x20 ≤ 0x7f ∧ 0x7f ≤ 0x7f) ∨ 0x7f = 0x0a ∨ 0x7f = 0x0d ∨ 0x7f = 0x1b) :=
  ⟨by decide, removeNonText_range [0x00, 0x41, 0x7f, 0xff] 0x7f (by decide)⟩

/-! ## The output pump: the claims -/

/-- C4: with timestamping disabled (`tsfSpec = ""`), for every sequence of
chunks returned by successful serial reads, the bytes the output pump writes
to the local output, concatenated, are `removeNonText` of the concatenated
chunks, no timestamp prefix is printed, and the bytes are the same for every
other way of splitting the same stream into chunks. -/
theorem outputPump_plain (env : Env) (chunks chunks' : List (List Nat))
    (h : env.flags.tsfSpec = "") :
    writtenBytes (outputPump env (okReads chunks)).trace = removeNonText chunks.flatten ∧
    stampCount (outputPump env (okReads chunks)).trace = 0 ∧
    (chunks'.flatten = chunks.flatten →
      writtenBytes (outputPump env (okReads chunks')).trace
        = writtenBytes (outputPump env (okReads chunks)).trace) := by
  unfold outputPump
  refine ⟨(outputPumpFrom_plain env h chunks _).1, (outputPumpFrom_plain env h chunks _).2, ?_⟩
  intro hc
  rw [(outputPumpFrom_plain env h chunks _).1, (outputPumpFrom_plain env h chunks' _).1, hc]

/-- C4 at the chunks `"a\x01"`, `"\nb"` and the chunks `"a"`, `"\x01\nb"` of
the same stream, without timestamps. -/
theorem outputPump_plain_witness :
    (demoEnv "").flags.tsfSpec = "" ∧
    writtenBytes (outputPump (demoEnv "") (okReads [[0x61, 0x01], [0x0a, 0x62]])).trace
      = [0x61, 0x20, 0x0a, 0x62] ∧
    writtenBytes (outputPump (demoEnv "") (okReads [[0x61], [0x01, 0x0a, 0x62]])).trace
      = writtenBytes (outputPump (demoEnv "") (okReads [[0x61, 0x01], [0x0a, 0x62]])).trace :=
  ⟨by decide,
    ((outputPump_plain (demoEnv "") [[0x61, 0x01], [0x0a, 0x62]]
      [[0x61], [0x01, 0x0a, 0x62]] (by decide)).1).trans (by decide),
    (outputPump_plain (demoEnv "") [[0x61, 0x01], [0x0a, 0x62]]
      [[0x61], [0x01, 0x0a, 0x62]] (by decide)).2.2 (by decide)⟩

/-- C5, as stated, fails: the first chunk `"\nA"` has one line-feed and the
output pump prints two timestamp prefixes for it. -/
theorem outputPump_two_stamps :
    ¬ ∀ (env : Env) (chunk : List Nat), env.flags.tsfSpec ≠ "" → chunk.count 0x0a = 1 →
      stampCount (outputPump env (okReads [chunk])).trace = 1 := by
  intro h
  have h1 := h (demoEnv "yes") [0x0a, 0x41] (by decide) (by decide)
  revert h1
  decide

/-- C5, amended: with timestamping enabled, for a first chunk of the session
with exactly one line-feed byte, the output pump prints exactly one timestamp
prefix when the line-feed is the last byte of the chunk, and exactly two when
it is not. -/
theorem outputPump_first_chunk_stamps (env : Env) (chunk : List Nat)
    (h : env.flags.tsfSpec ≠ "") (h1 : chunk.count 0x0a = 1) :
    stampCount (outputPump env (okReads [chunk])).trace
      = if chunk.getLast? = some 0x0a then 1 else 2 := by
  have e1 : stampCount (outputPump env (okReads [chunk])).trace
      = stampCount (emitStamped env (removeNonText chunk)
          { lineStart := true, stamps := 0 }).1 := by
    unfold outputPump
    rw [okReads_cons, outputPumpFrom_ok, writeChunk_stamped env _ chunk h]
    show stampCount (Event.serialRead :: (_ ++ [])) = _
    rw [List.append_nil]
    rfl
  have e2 : (removeNonText chunk).dropLast.count 0x0a = chunk.dropLast.count 0x0a := by
    rw [removeNonText_eq_map, ← List.map_dropLast, ← removeNonText_eq_map,
      count_lf_removeNonText]
  have e3 : removeNonText chunk ≠ [] ↔ chunk ≠ [] := by
    rw [removeNonText_eq_map]
    simp
  rw [e1, stampCount_emitStamped, e2]
  simp only [e3, true_and]
  exact count_one_dropLast chunk h1

/-- The amended C5 at the chunk `"OK\n"`, with `--timestamp=yes`. -/
theorem outputPump_first_chunk_stamps_witness :
    (demoEnv "yes").flags.tsfSpec ≠ "" ∧ [0x4f, 0x4b, 0x0a].count 0x0a = 1 ∧
    stampCount (outputPump (demoEnv "yes") (okReads [[0x4f, 0x4b, 0x0a]])).trace
      = if [0x4f, 0x4b, 0x0a].getLast? = some 0x0a then 1 else 2 :=
  ⟨by decide, by decide,
    outputPump_first_chunk_stamps (demoEnv "yes") [0x4f, 0x4b, 0x0a] (by decide) (by decide)⟩

/-- C6: with timestamping enabled, for every sequence of chunks returned by
successful serial reads, what the output pump sends to standard output is the
sanitized stream, byte by byte and in order, with `FormatTimestampNow()`
printed immediately before the byte at position `k` exactly when `k` is a line
boundary (`k = 0`, or the sanitized byte at `k - 1` is a line-feed); the
output is the same for every other way of splitting the stream into chunks;
and after the chunks `lineStart` is true iff no byte has been written or the
last byte written is a line-feed. -/
theorem outputPump_stamped (env : Env) (chunks chunks' : List (List Nat))
    (h : env.flags.tsfSpec ≠ "") :
    stdoutEvents (outputPump env (okReads chunks)).trace
      = specStamped env (removeNonText chunks.flatten) ∧
    writtenBytes (outputPump env (okReads chunks)).trace = removeNonText chunks.flatten ∧
    (chunks'.flatten = chunks.flatten →
      stdoutEvents (outputPump env (okReads chunks')).trace
        = stdoutEvents (outputPump env (okReads chunks)).trace) ∧
    ((outputPump env (okReads chunks)).st.lineStart = true ↔
      (writtenBytes (outputPump env (okReads chunks)).trace = [] ∨
        (writtenBytes (outputPump env (okReads chunks)).trace).getLast? = some 0x0a)) := by
  have key : ∀ cs : List (List Nat),
      stdoutEvents (outputPump env (okReads cs)).trace
        = specStamped env (removeNonText cs.flatten) := by
    intro cs
    unfold outputPump
    rw [(outputPumpFrom_stamped env h cs _).1, emitStamped_spec]
  have hw : writtenBytes (outputPump env (okReads chunks)).trace
      = removeNonText chunks.flatten := by
    rw [← writtenBytes_stdoutEvents]
    unfold outputPump
    rw [(outputPumpFrom_stamped env h chunks _).1, writtenBytes_emitStamped]
  refine ⟨key chunks, hw, ?_, ?_⟩
  · intro hc
    rw [key chunks, key chunks', hc]
  · rw [hw]
    unfold outputPump
    rw [(outputPumpFrom_stamped env h chunks _).2, emitStamped_spec]
    exact isLineBoundary_length _

/-- C6 at the chunks `"\nA"`, `""`, `"\n\nB"` and the chunks `"\nA\n"`,
`"\nB"` of the same stream, with `--timestamp=yes`. -/
theorem outputPump_stamped_witness :
    (demoEnv "yes").flags.tsfSpec ≠ "" ∧
    stdoutEvents (outputPump (demoEnv "yes")
        (okReads [[0x0a, 0x41], [], [0x0a, 0x0a, 0x42]])).trace
      = [Event.stdoutPrintf "[0] ", Event.stdoutWrite [0x0a],
         Event.stdoutPrintf "[1] ", Event.stdoutWrite [0x41], Event.stdoutWrite [0x0a],
         Event.stdoutPrintf "[2] ", Event.stdoutWrite [0x0a],
         Event.stdoutPrintf "[3] ", Event.stdoutWrite [0x42]] ∧
    stdoutEvents (outputPump (demoEnv "yes")
        (okReads [[0x0a, 0x41, 0x0a], [0x0a, 0x42]])).trace
      = stdoutEvents (outputPump (demoEnv "yes")
        (okReads [[0x0a, 0x41], [], [0x0a, 0x0a, 0x42]])).trace :=
  ⟨by decide,
    ((outputPump_stamped (demoEnv "yes") [[0x0a, 0x41], [], [0x0a, 0x0a, 0x42]]
      [[0x0a, 0x41, 0x0a], [0x0a, 0x42]] (by decide)).1).trans (by decide),
    (outputPump_stamped (demoEnv "yes") [[0x0a, 0x41], [], [0x0a, 0x0a, 0x42]]
      [[0x0a, 0x41, 0x0a], [0x0a, 0x42]] (by decide)).2.2.1 (by decide)⟩

/-! ## Faults of the serial port: the claims -/

/-- C7: for every sequence of `N` successful serial reads followed by a read
that returns a fault, the output pump processes the `N` reads and the bytes
that came with the fault, then calls `reportf` once and `cancel` once and
returns, without a further read (`N + 1` reads in all, the later results stay
unread); `console` then returns `nil`. -/
theorem outputPump_fault (env : Env) (w : World) (port : String) (chunks : List (List Nat))
    (f : ReadResult) (e : String) (rest : List ReadResult)
    (hf : f.err = some e) (hp : w.getPort = Except.ok port) (ho : w.openErr = none)
    (hr : w.serialReads = okReads chunks ++ f :: rest) :
    (outputPump env (okReads chunks ++ f :: rest)).trace
      = (outputPump env (okReads chunks)).trace ++ Event.serialRead ::
          ((writeChunk env (outputPump env (okReads chunks)).st f.data).1
            ++ [Event.reportf ("read err " ++ e), Event.cancel]) ∧
    (outputPump env (okReads chunks ++ f :: rest)).trace.countP Event.isReport = 1 ∧
    (outputPump env (okReads chunks ++ f :: rest)).trace.count Event.cancel = 1 ∧
    (outputPump env (okReads chunks ++ f :: rest)).trace.count Event.serialRead
      = chunks.length + 1 ∧
    (outputPump env (okReads chunks ++ f :: rest)).status = PumpStatus.returned ∧
    (outputPump env (okReads chunks ++ f :: rest)).unread = rest ∧
    (console env w).outcome = Outcome.nil := by
  obtain ⟨c, fe⟩ := f
  simp only at hf
  subst hf
  have ht : (outputPump env (okReads chunks ++ { data := c, err := some e } :: rest)).trace
      = (outputPump env (okReads chunks)).trace ++ Event.serialRead ::
          ((writeChunk env (outputPump env (okReads chunks)).st c).1
            ++ [Event.reportf ("read err " ++ e), Event.cancel]) := by
    unfold outputPump
    rw [outputPumpFrom_okReads_append, outputPumpFrom_fault]
  have hc : (outputPump env (okReads chunks ++ { data := c, err := some e } :: rest)).trace.filter
      (fun x => !x.isStdout)
      = List.replicate chunks.length Event.serialRead
          ++ [Event.serialRead, Event.reportf ("read err " ++ e), Event.cancel] := by
    rw [ht, List.filter_append, List.filter_cons, List.filter_append, control_writeChunk]
    unfold outputPump
    rw [control_outputPumpFrom_ok]
    rfl
  refine ⟨ht, ?_, ?_, ?_, ?_, ?_, ?_⟩
  · rw [countP_filter_control, hc, List.countP_append]
    simp [List.countP_replicate, Event.isReport, List.countP_cons]
  · rw [count_filter_control _ Event.cancel rfl, hc, List.count_append, List.count_replicate]
    simp [List.count_cons]
  · rw [count_filter_control _ Event.serialRead rfl, hc, List.count_append,
      List.count_replicate]
    simp [List.count_cons]
  · unfold outputPump
    rw [outputPumpFrom_okReads_append, outputPumpFrom_fault]
  · unfold outputPump
    rw [outputPumpFrom_okReads_append, outputPumpFrom_fault]
  · have hm : Event.cancel ∈ (outputPump env w.serialReads).trace := by
      rw [hr, ht]
      simp
    unfold console
    rw [hp]
    simp only [ho]
    simp [hm]

/-- C7 at two successful reads, `"OK\n"` and an empty one, followed by the
fault `EOF`, with `--timestamp=yes`. -/
theorem outputPump_fault_witness :
    (outputPump (demoEnv "yes")
      (okReads [[0x4f, 0x4b, 0x0a], []] ++ { data := [], err := some "EOF" } ::
        [{ data := [0x41], err := none }])).trace.count Event.serialRead = 3 ∧
    (console (demoEnv "yes")
      { getPort := Except.ok "/dev/ttyUSB0", openErr := none, parentDone := false,
        serialReads := okReads [[0x4f, 0x4b, 0x0a], []] ++ { data := [], err := some "EOF" } ::
          [{ data := [0x41], err := none }],
        stdinReads := [] }).outcome = Outcome.nil :=
  ⟨(outputPump_fault (demoEnv "yes")
      { getPort := Except.ok "/dev/ttyUSB0", openErr := none, parentDone := false,
        serialReads := okReads [[0x4f, 0x4b, 0x0a], []] ++ { data := [], err := some "EOF" } ::
          [{ data := [0x41], err := none }],
        stdinReads := [] }
      "/dev/ttyUSB0" [[0x4f, 0x4b, 0x0a], []] { data := [], err := some "EOF" } "EOF"
      [{ data := [0x41], err := none }] rfl rfl rfl rfl).2.2.2.1,
   (outputPump_fault (demoEnv "yes")
      { getPort := Except.ok "/dev/ttyUSB0", openErr := none, parentDone := false,
        serialReads := okReads [[0x4f, 0x4b, 0x0a], []] ++ { data := [], err := some "EOF" } ::
          [{ data := [0x41], err := none }],
        stdinReads := [] }
      "/dev/ttyUSB0" [[0x4f, 0x4b, 0x0a], []] { data := [], err := some "EOF" } "EOF"
      [{ data := [0x41], err := none }] rfl rfl rfl rfl).2.2.2.2.2.2⟩

/-! ## The input pump: the claims -/

/-- C8: with `noInput` set, whatever the local input would deliver, the input
pump reads nothing from it, writes no byte to the serial port and never calls
`cancel`: it is parked in `select {}` with an empty trace. -/
theorem inputPump_noInput (flags : Flags) (reads : List ReadResult)
    (h : flags.noInput = true) :
    (inputPump flags reads).trace = [] ∧
    (inputPump flags reads).trace.count Event.stdinRead = 0 ∧
    (inputPump flags reads).unread = reads ∧
    sentBytes (inputPump flags reads).trace = [] ∧
    serialWrites (inputPump flags reads).trace = [] ∧
    (inputPump flags reads).trace.count Event.cancel = 0 ∧
    (inputPump flags reads).status = PumpStatus.parked := by
  unfold inputPump
  rw [if_pos h]
  exact ⟨rfl, rfl, rfl, rfl, rfl, rfl, rfl⟩

/-- C8 at two pending keystrokes followed by the end of the input. -/
theorem inputPump_noInput_witness :
    ({ (demoEnv "").flags with noInput := true } : Flags).noInput = true ∧
    (inputPump { (demoEnv "").flags with noInput := true }
      [{ data := [0x61], err := none }, { data := [0x62], err := none },
       { data := [], err := some "EOF" }]).trace = [] :=
  ⟨rfl, (inputPump_noInput { (demoEnv "").flags with noInput := true }
      [{ data := [0x61], err := none }, { data := [0x62], err := none },
       { data := [], err := some "EOF" }] rfl).1⟩

/-- C9: with `noInput` unset, for every sequence of successful reads of the
local input followed by the first fault, the input pump writes to the serial
port exactly the bytes read, those that came with the fault included,
unmodified and in order, one write for each read that returned a byte and
every write of one byte (a read returns at most one byte); on the fault it
calls `cancel` once, as its last action, never calls `reportf`, and returns
without a further read. -/
theorem inputPump_forward (flags : Flags) (chunks : List (List Nat)) (f : ReadResult)
    (e : String) (rest : List ReadResult)
    (hn : flags.noInput = false) (hf : f.err = some e)
    (hlen : ∀ c ∈ chunks ++ [f.data], c.length ≤ 1) :
    sentBytes (inputPump flags (okReads chunks ++ f :: rest)).trace
      = (chunks ++ [f.data]).flatten ∧
    serialWrites (inputPump flags (okReads chunks ++ f :: rest)).trace
      = (chunks ++ [f.data]).filter (fun d => decide (d ≠ [])) ∧
    (∀ bs ∈ serialWrites (inputPump flags (okReads chunks ++ f :: rest)).trace,
      bs.length = 1) ∧
    (inputPump flags (okReads chunks ++ f :: rest)).trace.count Event.cancel = 1 ∧
    (inputPump flags (okReads chunks ++ f :: rest)).trace.getLast? = some Event.cancel ∧
    (inputPump flags (okReads chunks ++ f :: rest)).trace.countP Event.isReport = 0 ∧
    (inputPump flags (okReads chunks ++ f :: rest)).trace.count Event.stdinRead
      = chunks.length + 1 ∧
    (inputPump flags (okReads chunks ++ f :: rest)).status = PumpStatus.returned ∧
    (inputPump flags (okReads chunks ++ f :: rest)).unread = rest := by
  obtain ⟨c, fe⟩ := f
  simp only at hf hlen
  subst hf
  have hrun : inputPump flags (okReads chunks ++ { data := c, err := some e } :: rest)
      = { trace := (chunks ++ [c]).flatMap (fun d => Event.stdinRead :: forward d)
            ++ [Event.cancel],
          status := PumpStatus.returned, unread := rest } := by
    unfold inputPump
    rw [hn]
    exact inputLoop_trace chunks c e rest
  rw [hrun]
  have hs : serialWrites ((chunks ++ [c]).flatMap (fun d => Event.stdinRead :: forward d)
      ++ [Event.cancel]) = (chunks ++ [c]).filter (fun d => decide (d ≠ [])) := by
    rw [← serialWrites_forward]
    simp [serialWrites, List.filterMap_append]
  refine ⟨?_, hs, ?_, ?_, ?_, ?_, ?_, rfl, rfl⟩
  · show sentBytes (_ ++ [Event.cancel]) = _
    rw [← sentBytes_forward]
    simp [sentBytes, Event.sent]
  · intro bs hbs
    simp only at hbs
    rw [hs, List.mem_filter] at hbs
    have h1 := hlen bs hbs.1
    have h2 : bs ≠ [] := by simpa using hbs.2
    cases bs with
    | nil => exact absurd rfl h2
    | cons x xs =>
      simp only [List.length_cons] at h1 ⊢
      omega
  · show List.count Event.cancel (_ ++ [Event.cancel]) = 1
    rw [List.count_append, (quiet_forward _).1]
    rfl
  · exact List.getLast?_concat _
  · show List.countP Event.isReport (_ ++ [Event.cancel]) = 0
    rw [List.countP_append, (quiet_forward _).2]
    rfl
  · show List.count Event.stdinRead (_ ++ [Event.cancel]) = _
    rw [List.count_append, count_stdinRead_forward, List.length_append]
    rfl

/-- C9 at the keystrokes `a`, an empty read, `b`, and the fault `EOF` that
comes with the byte `c`. -/
theorem inputPump_forward_witness :
    (demoEnv "").flags.noInput = false ∧
    (inputPump (demoEnv "").flags
      (okReads [[0x61], [], [0x62]] ++ { data := [0x63], err := some "EOF" } ::
        [{ data := [0x64], err := none }])).trace
      = [Event.stdinRead, Event.serialWrite [0x61], Event.stdinRead, Event.stdinRead,
         Event.serialWrite [0x62], Event.stdinRead, Event.serialWrite [0x63], Event.cancel] ∧
    sentBytes (inputPump (demoEnv "").flags
      (okReads [[0x61], [], [0x62]] ++ { data := [0x63], err := some "EOF" } ::
        [{ data := [0x64], err := none }])).trace = [0x61, 0x62, 0x63] :=
  ⟨rfl, by decide,
    (inputPump_forward (demoEnv "").flags [[0x61], [], [0x62]]
      { data := [0x63], err := some "EOF" } "EOF" [{ data := [0x64], err := none }]
      rfl rfl (by decide)).1⟩

/-! ## Failure to open the port: the claims -/

/-- C10: if `serial.Open` fails, `console` returns a non-nil error, the
annotation of the open error with the message `"failed to open <port>"`,
before any pump is started: the only effect is the call of `serial.Open`; the
control lines are not set, nothing is read or written. -/
theorem console_open_fails (env : Env) (w : World) (port err : String)
    (hp : w.getPort = Except.ok port) (ho : w.openErr = some err) :
    (console env w).outcome
      = Outcome.error (ConsoleError.annotated err ("failed to open " ++ port)) ∧
    (console env w).outcome ≠ Outcome.nil ∧
    (ConsoleError.annotated err ("failed to open " ++ port)).message
      = "failed to open " ++ port ++ (": " ++ err) ∧
    (console env w).setup = [Event.serialOpen (openOptions env.flags port)] ∧
    (console env w).output = none ∧
    (console env w).input = none := by
  have hc : console env w
      = { outcome := Outcome.error (ConsoleError.annotated err ("failed to open " ++ port)),
          setup := [Event.serialOpen (openOptions env.flags port)],
          output := none, input := none } := by
    unfold console
    rw [hp]
    simp only [ho]
  rw [hc]
  refine ⟨rfl, ?_, ?_, rfl, rfl, rfl⟩
  · intro h
    cases h
  · simp [ConsoleError.message, String.append_assoc]

/-- C10 at the port `/dev/ttyUSB0`, which cannot be opened, with a device
that would have sent `"A"`. -/
theorem console_open_fails_witness :
    (console (demoEnv "yes")
      { getPort := Except.ok "/dev/ttyUSB0", openErr := some "no such file",
        parentDone := false, serialReads := [{ data := [0x41], err := none }],
        stdinReads := [{ data := [0x61], err := none }] }).outcome
      = Outcome.error
          (ConsoleError.annotated "no such file" ("failed to open " ++ "/dev/ttyUSB0")) :=
  (console_open_fails (demoEnv "yes")
      { getPort := Except.ok "/dev/ttyUSB0", openErr := some "no such file",
        parentDone := false, serialReads := [{ data := [0x41], err := none }],
        stdinReads := [{ data := [0x61], err := none }] }
      "/dev/ttyUSB0" "no such file" rfl rfl).1

end Console
